import Mathlib

/-!
Verification development for the antigravity-copilot throttling proxy.

Shallow embedding of:
- `src/ConcurrencyQueue.ts` (ConcurrencyQueue, retryWithBackoff, defaultShouldRetry)
- `src/RateLimiter.ts` (endRequest, getStatus, canProceed)
- `src/ThinkingStreamTransformer.ts` (the three SSE stream transformers)
- the throttling proxy server file (ThrottlingProxyServer.forward / handleRequest,
  tryRewritePayload, truncateToolMessagesInPayload, preflightFirstSseEvent)

JS strings are modelled as Lean `String`; all string primitives are re-implemented
structurally over `List Char` so that every definition kernel-evaluates on concrete
inputs.  JS numbers holding integral values are modelled as `Int` (or `Nat` where the
source keeps them non-negative).  `JSON.parse` is kept abstract: functions that parse a
data payload take a `parse : String → Option OAIChunk` argument; `parse p = none`
models a `JSON.parse` exception on `p`.
-/

/-- Lowercase one char, as JS `toLowerCase` acts on ASCII. -/
def lowerChar (c : Char) : Char := if 'A' ≤ c && c ≤ 'Z' then Char.ofNat (c.toNat + 32) else c

/-- Model of JS `String.prototype.toLowerCase` (ASCII range). -/
def lowerStr (s : String) : String := ⟨s.data.map lowerChar⟩

/-- Whitespace trim on a char list (both ends), as JS `trim`. -/
def trimChars (l : List Char) : List Char :=
  ((l.dropWhile Char.isWhitespace).reverse.dropWhile Char.isWhitespace).reverse

/-- Model of JS `String.prototype.trim`. -/
def trimStr (s : String) : String := ⟨trimChars s.data⟩

/-- Split a char list at every occurrence of a separator char. -/
def splitChar (sep : Char) : List Char → List (List Char)
  | [] => [[]]
  | x :: xs =>
    match splitChar sep xs with
    | [] => [[]]
    | h :: t => if x = sep then [] :: h :: t else (x :: h) :: t

/-- Substring containment on char lists. -/
def containsSub : List Char → List Char → Bool
  | [], pat => pat.isEmpty
  | s@(_ :: rest), pat => pat.isPrefixOf s || containsSub rest pat

/-- Model of JS `String.prototype.includes`. -/
def strContains (s pat : String) : Bool := containsSub s.data pat.data

/-- The lines of a string (split at every newline). -/
def linesOf (s : String) : List String := (splitChar '\n' s.data).map (fun l => ⟨l⟩)

/-- First `n` chars, as JS `slice(0, n)` for `n ≥ 0`. -/
def takeStr (s : String) (n : Nat) : String := ⟨s.data.take n⟩

/-- Last `n` chars, as JS `slice(-n)` for `n > 0`. -/
def takeRightStr (s : String) (n : Nat) : String := ⟨s.data.drop (s.data.length - n)⟩

/-- Length in chars (the model's unit for JS string length). -/
def strLen (s : String) : Nat := s.data.length

/-- Model of the data-line extraction shared (textually duplicated) by all three
transformers and the preflight validator: the JS regex match
of a multiline `data:`-prefixed group followed by `.trim()` on the captured group.
The regex needs at least one character after `data:`, so a line that is exactly
`data:` does not match and the search continues on later lines.  Backtracking plus
the final `.trim()` make the captured-and-trimmed payload equal to the trimmed
remainder of the line. -/
def findDataPayload (event : String) : Option String :=
  (linesOf event).findSome? fun l =>
    if ("data:" : String).data.isPrefixOf l.data && decide (5 < l.data.length)
    then some (trimStr ⟨l.data.drop 5⟩) else none

structure QState where
  running : Nat
  queue : List (Nat × Int)
  released : List Nat
  maxConcurrency : Nat
  totalQueued : Nat
  totalProcessed : Nat
deriving DecidableEq, Repr

/-- The initial state of `new ConcurrencyQueue(max)`. -/
def initQ (max : Nat) : QState :=
  { running := 0, queue := [], released := [], maxConcurrency := max,
    totalQueued := 0, totalProcessed := 0 }

/-- The insertion loop of `ConcurrencyQueue.run`: insert before the first queued item
of strictly lower priority, else push to the back. -/
def insertByPriority (id : Nat) (p : Int) : List (Nat × Int) → List (Nat × Int)
  | [] => [(id, p)]
  | x :: xs => if p > x.2 then (id, p) :: x :: xs else x :: insertByPriority id p xs

/-- `run(fn, priority)` up to its first suspension point: count the submission, then
either start immediately (`running++`) or enqueue a ticket and suspend. -/
def submitQ (s : QState) (id : Nat) (priority : Int) : QState :=
  let s := { s with totalQueued := s.totalQueued + 1 }
  if s.running ≥ s.maxConcurrency
  then { s with queue := insertByPriority id priority s.queue }
  else { s with running := s.running + 1 }

/-- The `while` loop of `releaseNext`: `this.running` does not change inside the loop
(resolving a promise does not run its continuation), so the condition is re-tested
with the same `running` each iteration. -/
def releaseLoop (running maxC : Nat) : List (Nat × Int) → List Nat → List (Nat × Int) × List Nat
  | [], rel => ([], rel)
  | x :: xs, rel =>
    if running < maxC then releaseLoop running maxC xs (rel ++ [x.1]) else (x :: xs, rel)

/-- `releaseNext()`. -/
def releaseNextQ (s : QState) : QState :=
  let r := releaseLoop s.running s.maxConcurrency s.queue s.released
  { s with queue := r.1, released := r.2 }

/-- The `finally` block of `run`: `running--; totalProcessed++; releaseNext()`. -/
def completeQ (s : QState) : QState :=
  releaseNextQ { s with running := s.running - 1, totalProcessed := s.totalProcessed + 1 }

/-- A released ticket's continuation resumes: the `await` returns and `run` executes
`this.running++` with no re-check of the capacity. -/
def resumeQ (s : QState) (id : Nat) : QState :=
  if id ∈ s.released
  then { s with released := s.released.erase id, running := s.running + 1 }
  else s

/-- `setMaxConcurrency(max)`: clamp to at least 1, then `releaseNext()`. -/
def setMaxConcurrencyQ (s : QState) (n : Int) : QState :=
  releaseNextQ { s with maxConcurrency := (max 1 n).toNat }

/-! ## retryWithBackoff and defaultShouldRetry (src/ConcurrencyQueue.ts) -/

/-- Errors thrown inside the admitted task, as constructed by the proxy source:
`RateLimitError` (name, status 429 and the fully buffered upstream body) or a plain
`Error` carrying a message (connection and stream failures). -/
inductive ProxyErr where
  | rateLimit (status : Nat) (body : String)
  | generic (msg : String)
deriving DecidableEq, Repr

/-- The message `RateLimitError`'s constructor builds from the upstream body. -/
def rateLimitErrorMessage (body : String) : String :=
  "Rate limit exceeded (429): " ++ takeStr body 200

/-- The rate-limit text patterns of `defaultShouldRetry`. -/
def retryPatterns : List String :=
  ["429", "rate limit", "too many requests", "quota exceeded",
   "resource_exhausted", "resourceexhausted"]

/-- Lowercased-message pattern test used by `defaultShouldRetry`. -/
def messageMatchesRetry (msg : String) : Bool :=
  retryPatterns.any fun p => strContains (lowerStr msg) p

/-- `defaultShouldRetry`: status 429, else the message patterns on an `Error`. -/
def defaultShouldRetry : ProxyErr → Bool
  | ProxyErr.rateLimit s b => s == 429 || messageMatchesRetry (rateLimitErrorMessage b)
  | ProxyErr.generic m => messageMatchesRetry m

/-- The `while(true)` loop of `retryWithBackoff` with `fuel = maxRetries - attempt`
remaining retries: attempt `i` runs `fn`; on an error that `shouldRetry` accepts and
with retries left, attempt `i+1` follows.  Returns the final outcome and the total
number of attempts performed.  (The backoff delay and jitter only affect timing, not
the outcome, and are not modelled.) -/
def retryGo (f : Nat → Except ProxyErr Nat) (sr : ProxyErr → Bool) :
    Nat → Nat → Except ProxyErr Nat × Nat
  | 0, i =>
    match f i with
    | Except.ok v => (Except.ok v, i + 1)
    | Except.error e => (Except.error e, i + 1)
  | fuel + 1, i =>
    match f i with
    | Except.ok v => (Except.ok v, i + 1)
    | Except.error e =>
      if sr e then retryGo f sr fuel (i + 1) else (Except.error e, i + 1)

/-- `retryWithBackoff(fn, {maxRetries, shouldRetry})` over a sequence of attempt
outcomes. -/
def retryWithBackoffM (f : Nat → Except ProxyErr Nat) (sr : ProxyErr → Bool)
    (maxRetries : Nat) : Except ProxyErr Nat × Nat :=
  retryGo f sr maxRetries 0

/-! ## RateLimiter (src/RateLimiter.ts)

Time is passed explicitly: `now` stands for `Date.now()` at the call.  The cooldown
`setTimeout` only zeroes `_effectiveCooldownMs` later; observable status at any time
is computed by `getStatus` from `lastRequestTime`, so the timer is not part of the
state functions proved about. -/

structure RLConfig where
  enabled : Bool
  cooldownMs : Nat
deriving DecidableEq, Repr

structure RLState where
  isBusy : Bool
  lastRequestTime : Nat
  pendingRequests : Nat
  consecutive429Count : Nat
  effectiveCooldownMs : Nat
deriving DecidableEq, Repr

/-- The argument of `endRequest`: an object with a `status` field, an `Error` with a
message, or `undefined` (no error). -/
inductive RLOutcome where
  | status (code : Nat)
  | errMsg (msg : String)
deriving DecidableEq, Repr

/-- The rate-limit text patterns of `RateLimiter.isRateLimitError` (a shorter list
than `defaultShouldRetry`'s). -/
def rlPatterns : List String := ["429", "rate limit", "too many requests", "quota exceeded"]

/-- `RateLimiter.isRateLimitError`. -/
def isRateLimitErrorRL : RLOutcome → Bool
  | RLOutcome.status c => c == 429
  | RLOutcome.errMsg m => rlPatterns.any fun p => strContains (lowerStr m) p

/-- `RateLimiter.endRequest(error?)` at time `now`. -/
def endRequestRL (cfg : RLConfig) (st : RLState) (outcome : Option RLOutcome) (now : Nat) :
    RLState :=
  let st := { st with isBusy := false, pendingRequests := st.pendingRequests - 1 }
  let was429 := match outcome with
    | some o => isRateLimitErrorRL o
    | none => false
  if was429 then
    let cnt := st.consecutive429Count + 1
    let backoffMultiplier := 2 ^ (min cnt 5)
    let cooldown := min (cfg.cooldownMs * backoffMultiplier) 300000
    { st with consecutive429Count := cnt, effectiveCooldownMs := cooldown,
              lastRequestTime := now }
  else
    { st with consecutive429Count := 0, effectiveCooldownMs := 0, lastRequestTime := now }

structure RLStatus where
  isBusy : Bool
  isInCooldown : Bool
  remainingCooldownMs : Nat
  cooldownMs : Nat
  consecutive429Count : Nat
deriving DecidableEq, Repr

/-- `RateLimiter.getStatus()` at time `now`.  `activeCooldown` is the JS expression
`this._effectiveCooldownMs || config.cooldownMs`: a zero effective cooldown falls back
to the configured default. -/
def getStatusRL (cfg : RLConfig) (st : RLState) (now : Nat) : RLStatus :=
  let timeSinceLastRequest := now - st.lastRequestTime
  let activeCooldown := if st.effectiveCooldownMs = 0 then cfg.cooldownMs else st.effectiveCooldownMs
  let remainingCooldown := activeCooldown - timeSinceLastRequest
  { isBusy := st.isBusy, isInCooldown := remainingCooldown > 0,
    remainingCooldownMs := remainingCooldown, cooldownMs := activeCooldown,
    consecutive429Count := st.consecutive429Count }

/-- `RateLimiter.canProceed()` at time `now` (notification side effects dropped). -/
def canProceedRL (cfg : RLConfig) (st : RLState) (now : Nat) : Bool :=
  if !cfg.enabled then true
  else
    let status := getStatusRL cfg st now
    if status.isBusy then false
    else if status.isInCooldown then false
    else true

/-! ## OpenAI chunk data (the parsed shape the transformers read)

`data?.choices?.[0]?.delta` with optional `reasoning_content` / `content` strings and
`data?.choices?.[0]?.finish_reason`.  An absent or null JSON field is `none`.  An
absent or non-array `choices` is modelled as the empty list. -/

structure OAIDelta where
  reasoning_content : Option String := none
  content : Option String := none
deriving DecidableEq, Repr

structure OAIChoice where
  delta : Option OAIDelta := none
  finish_reason : Option String := none
deriving DecidableEq, Repr

structure OAIChunk where
  choices : List OAIChoice := []
  model : Option String := none
deriving DecidableEq, Repr

/-- `data?.choices?.[0]?.delta`. -/
def firstDelta (d : OAIChunk) : Option OAIDelta := d.choices.head?.bind fun c => c.delta

/-- `data?.choices?.[0]?.finish_reason`. -/
def firstFinishReason (d : OAIChunk) : Option String :=
  d.choices.head?.bind fun c => c.finish_reason

/-- The check `v !== undefined && v !== null && v !== ''` on an optional string
(also JS truthiness on a string-or-absent value). -/
def optNonEmpty : Option String → Bool
  | some s => !(s = "")
  | none => false

/-! ## ReasoningAnnotatorTransformer (src/ThinkingStreamTransformer.ts) -/

structure CState where
  messageStarted : Bool := false
  thinkingBlockStarted : Bool := false
  textBlockStarted : Bool := false
  accumulatedThinking : String := ""
  accumulatedContent : String := ""
deriving DecidableEq, Repr

/-- Output events, one per `formatClaudeEvent` call (`usage` payloads and the message
id carry no information for the claims and are omitted); `raw` is the leftover-buffer
push of `_flush`, also the shape a passthrough would need to take. -/
inductive ClaudeEvent where
  | message_start (model : String)
  | content_block_start (index : Nat) (blockType : String)
  | content_block_delta (index : Nat) (deltaType : String) (text : String)
  | content_block_stop (index : Nat)
  | message_delta (stop_reason : String)
  | message_stop
  | raw (s : String)
deriving DecidableEq, Repr

/-- `mapFinishReason`. -/
def mapFinishReason (r : String) : String :=
  if r = "stop" then "end_turn"
  else if r = "length" then "max_tokens"
  else if r = "tool_calls" then "tool_use"
  else "end_turn"

/-- `this.modelName || data?.model || 'unknown'` (JS `||`: empty strings fall
through). -/
def modelNameOrDefault (m : Option String) (d : OAIChunk) : String :=
  let fallback := match d.model with
    | some s => if s = "" then "unknown" else s
    | none => "unknown"
  match m with
  | some s => if s = "" then fallback else s
  | none => fallback

/-- `transformOpenAIToClaudeSSE` on one parsed chunk.  The thinking block index is the
constant 0, the text block index the constant 1, as in the source fields. -/
def claudeTransform (modelName : Option String) (st : CState) (data : OAIChunk) :
    CState × List ClaudeEvent :=
  let startEvs : List ClaudeEvent :=
    if st.messageStarted then [] else [ClaudeEvent.message_start (modelNameOrDefault modelName data)]
  let st := { st with messageStarted := true }
  match firstDelta data with
  | none => (st, startEvs)
  | some delta =>
    let r1 :=
      if optNonEmpty delta.reasoning_content then
        let startBlock : List ClaudeEvent :=
          if st.thinkingBlockStarted then [] else [ClaudeEvent.content_block_start 0 "thinking"]
        let r := delta.reasoning_content.getD ""
        ({ st with thinkingBlockStarted := true,
                   accumulatedThinking := st.accumulatedThinking ++ r },
         startBlock ++ [ClaudeEvent.content_block_delta 0 "thinking_delta" r])
      else (st, ([] : List ClaudeEvent))
    let st := r1.1
    let r2 :=
      if optNonEmpty delta.content then
        let closeThinking : List ClaudeEvent :=
          if st.thinkingBlockStarted && !st.textBlockStarted
          then [ClaudeEvent.content_block_stop 0] else []
        let st := if st.thinkingBlockStarted && !st.textBlockStarted
          then { st with thinkingBlockStarted := false } else st
        let startText : List ClaudeEvent :=
          if st.textBlockStarted then [] else [ClaudeEvent.content_block_start 1 "text"]
        let c := delta.content.getD ""
        ({ st with textBlockStarted := true,
                   accumulatedContent := st.accumulatedContent ++ c },
         closeThinking ++ startText ++ [ClaudeEvent.content_block_delta 1 "text_delta" c])
      else (st, ([] : List ClaudeEvent))
    let st := r2.1
    let r3 :=
      match firstFinishReason data with
      | some fr =>
        if fr = "" then (st, ([] : List ClaudeEvent))
        else
          let closeT : List ClaudeEvent :=
            if st.thinkingBlockStarted then [ClaudeEvent.content_block_stop 0] else []
          let closeX : List ClaudeEvent :=
            if st.textBlockStarted then [ClaudeEvent.content_block_stop 1] else []
          ({ st with thinkingBlockStarted := false, textBlockStarted := false },
           closeT ++ closeX ++
             [ClaudeEvent.message_delta (mapFinishReason fr), ClaudeEvent.message_stop])
      | none => (st, ([] : List ClaudeEvent))
    (r3.1, startEvs ++ r1.2 ++ r2.2 ++ r3.2)

/-- `OpenAIToClaudeStreamTransformer.processSSEChunk` on one complete SSE event; the
source's `return null` branches push nothing downstream and are the empty list. -/
def claudeProcessSSEChunk (parse : String → Option OAIChunk) (modelName : Option String)
    (st : CState) (line : String) : CState × List ClaudeEvent :=
  if strContains line "[DONE]" then (st, [])
  else
    match findDataPayload line with
    | none => (st, [])
    | some p =>
      if p = "" || p = "[DONE]" then (st, [])
      else
        match parse p with
        | none => (st, [])
        | some data => claudeTransform modelName st data

/-- `OpenAIToClaudeStreamTransformer._flush` (with an empty leftover buffer): close
any open blocks, then, whenever a message was started, emit `message_delta` with
`stop_reason: end_turn` and `message_stop` — unconditionally. -/
def claudeFlush (st : CState) : List ClaudeEvent :=
  (if st.thinkingBlockStarted then [ClaudeEvent.content_block_stop 0] else []) ++
  (if st.textBlockStarted then [ClaudeEvent.content_block_stop 1] else []) ++
  (if st.messageStarted
   then [ClaudeEvent.message_delta "end_turn", ClaudeEvent.message_stop] else [])

/-- Feed a list of complete SSE events through the dialect converter and then flush
at end of stream. -/
def claudeRunLines (parse : String → Option OAIChunk) (modelName : Option String)
    (lines : List String) : List ClaudeEvent :=
  let r := lines.foldl
    (fun acc line =>
      let step := claudeProcessSSEChunk parse modelName acc.1 line
      (step.1, acc.2 ++ step.2))
    (({} : CState), ([] : List ClaudeEvent))
  r.2 ++ claudeFlush r.1

/-! ## ThrottlingProxyServer.forward

One attempt of `forward` as a function of the upstream's behaviour for that attempt.
`committed` records whether any response bytes (status/headers) were written to the
client: `writeUpstreamHeaders` runs only in the non-429 branches, the 504 timeout
body and the preflight 502 body are also client writes.  A 429 reply is fully
buffered and surfaces as a rejection with `RateLimitError` carrying status 429 and
the buffered body; nothing is written to the client in that branch. -/

inductive Upstream where
  | noConnect (msg : String)
  | reply429 (body : String)
  | reply (status : Nat) (midStreamFailure : Option String)
  | timeout
deriving DecidableEq, Repr

structure ForwardResult where
  committed : Bool
  outcome : Except ProxyErr Nat
deriving Repr

/-- One `forward` attempt.  `reply status none` mirrors a non-429 response piped to
completion (status and headers mirrored, promise resolved with the status);
`reply status (some m)` a response whose stream errors after headers were mirrored
(the `upstreamRes.on('error', reject)` path); `timeout` the per-class timer writing a
504 and resolving; `noConnect` the `upstreamReq.on('error')` rejection before any
client write. -/
def forwardModel : Upstream → ForwardResult
  | Upstream.noConnect m => { committed := false, outcome := Except.error (ProxyErr.generic m) }
  | Upstream.reply429 body =>
      { committed := false, outcome := Except.error (ProxyErr.rateLimit 429 body) }
  | Upstream.reply status none => { committed := true, outcome := Except.ok status }
  | Upstream.reply _ (some m) =>
      { committed := true, outcome := Except.error (ProxyErr.generic m) }
  | Upstream.timeout => { committed := true, outcome := Except.ok 504 }

/-- The JSON error body written by `handleRequest`'s catch block. -/
structure ClientErrorBody where
  message : String
  retryable : Option Bool
  code : Option String
deriving DecidableEq, Repr

/-- The catch block of `handleRequest`: with headers not yet sent, a `RateLimitError`
becomes a 503 with a generic retryable body — deliberately not 429 — and anything
else a 502; with headers already sent the response is merely ended (`none`). -/
def clientErrorResponse (e : ProxyErr) (headersSent : Bool) : Option (Nat × ClientErrorBody) :=
  if headersSent then none
  else
    match e with
    | ProxyErr.rateLimit _ _ =>
        some (503, { message := "Model temporarily unavailable",
                     retryable := some true, code := some "SERVICE_UNAVAILABLE" })
    | ProxyErr.generic _ =>
        some (502, { message := "Upstream request failed", retryable := none, code := none })

/-! ## Payload rewriting (tryRewritePayload, truncateToolMessagesInPayload) -/

/-- One entry of `payload.messages`: its `role` and its `content` when that content is
a string (`none` models a non-string or absent content). -/
structure Msg where
  role : String
  content : Option String
deriving DecidableEq, Repr

/-- The decoded request body fields the rewriter touches.  A token field is `some v`
when present with `typeof === 'number'` (integral values modelled as `Int`). -/
structure Payload where
  max_tokens : Option Int := none
  max_output_tokens : Option Int := none
  max_completion_tokens : Option Int := none
  messages : List Msg := []
deriving DecidableEq, Repr

/-- The configuration slice `tryRewritePayload` reads. -/
structure RewriteCfg where
  truncateToolOutput : Bool
  maxToolOutputChars : Int
  toolOutputHeadChars : Int
  toolOutputTailChars : Int
  rewriteMaxTokens : Bool
  maxTokensThinking : Int
  maxTokensStandard : Int
deriving DecidableEq, Repr

/-- `(modelName ?? '').toLowerCase().includes('thinking')`. -/
def isThinkingName (modelName : Option String) : Bool :=
  strContains (lowerStr (modelName.getD "")) "thinking"

/-- The class cap `tryRewritePayload` selects. -/
def tokenCap (cfg : RewriteCfg) (modelName : Option String) : Int :=
  if isThinkingName modelName then cfg.maxTokensThinking else cfg.maxTokensStandard

/-- `Number.isFinite(x) ? Math.max(0, Math.floor(x)) : 0` on an integral JS number. -/
def normChars (n : Int) : Nat := n.toNat

/-- The head/tail adjustment of `truncateToolMessagesInPayload`: when the configured
head and tail together exceed the cap, prefer the head (clamped to the cap) and give
the tail the remainder. -/
def adjustHeadTail (maxChars headChars tailChars : Nat) : Nat × Nat :=
  if 0 < maxChars ∧ maxChars < headChars + tailChars then
    let h := min headChars maxChars
    (h, maxChars - h)
  else (headChars, tailChars)

/-- The omission marker inserted between head and tail. -/
def truncMarker (omitted : Nat) : String :=
  "\n\n...[Antigravity proxy truncated tool output: " ++ toString omitted ++
  " chars omitted]...\n\n"

/-- The truncated replacement for an over-long tool content string:
`head + marker(omitted) + tail` with `head = original.slice(0, h)` and
`tail = t > 0 ? original.slice(-t) : ''`. -/
def truncateContent (h t : Nat) (s : String) : String :=
  let head := takeStr s h
  let tail := if 0 < t then takeRightStr s t else ""
  let omitted := strLen s - strLen head - strLen tail
  head ++ truncMarker omitted ++ tail

/-- The per-message body of the `for` loop in `truncateToolMessagesInPayload`:
non-`tool` roles and non-string contents are skipped, as are contents within the
cap. -/
def truncateMsg (maxChars h t : Nat) (m : Msg) : Msg :=
  if m.role ≠ "tool" then m
  else
    match m.content with
    | none => m
    | some s =>
      if strLen s ≤ maxChars then m
      else { m with content := some (truncateContent h t s) }

/-- `truncateToolMessagesInPayload` (meta counters dropped; they are diagnostics
only). -/
def truncateToolMessages (maxCharsI headCharsI tailCharsI : Int) (p : Payload) : Payload :=
  let maxChars := normChars maxCharsI
  let ht := adjustHeadTail maxChars (normChars headCharsI) (normChars tailCharsI)
  if maxChars = 0 then p
  else { p with messages := p.messages.map (truncateMsg maxChars ht.1 ht.2) }

/-- `Option.map` of clamping a token field to the cap: `Math.min(original, cap)`. -/
def clampField (cap : Int) : Option Int → Option Int
  | some v => some (min v cap)
  | none => none

/-- `tryRewritePayload` at the decoded-payload level (the surrounding
`JSON.parse`/`JSON.stringify` and the URL guard are byte-level plumbing): optional
tool-output truncation, then the token clamp when enabled and the class cap is
positive. -/
def tryRewritePayloadModel (cfg : RewriteCfg) (modelName : Option String) (p : Payload) :
    Payload :=
  let p :=
    if cfg.truncateToolOutput
    then truncateToolMessages cfg.maxToolOutputChars cfg.toolOutputHeadChars
           cfg.toolOutputTailChars p
    else p
  if cfg.rewriteMaxTokens then
    let cap := tokenCap cfg modelName
    if 0 < cap then
      { p with max_tokens := clampField cap p.max_tokens,
               max_output_tokens := clampField cap p.max_output_tokens,
               max_completion_tokens := clampField cap p.max_completion_tokens }
    else p
  else p

/-! ## preflightFirstSseEvent -/

/-- Chunk carrying the first reasoning fragment. -/
def c3r1 : OAIChunk :=
  { choices := [{ delta := some { reasoning_content := some "A" } }], model := some "gpt" }

/-- Chunk carrying the second reasoning fragment. -/
def c3r2 : OAIChunk :=
  { choices := [{ delta := some { reasoning_content := some "B" } }], model := some "gpt" }

/-- Chunk carrying the content fragment. -/
def c3c1 : OAIChunk :=
  { choices := [{ delta := some { content := some "C" } }], model := some "gpt" }

/-- Chunk carrying `finish_reason: "stop"` with an empty delta object. -/
def c3fin : OAIChunk :=
  { choices := [{ delta := some {}, finish_reason := some "stop" }], model := some "gpt" }

/-- Concrete parse table standing for `JSON.parse` on the four payloads of the
claimed event sequence. -/
def c3Parse : String → Option OAIChunk := fun s =>
  if s = "r1" then some c3r1
  else if s = "r2" then some c3r2
  else if s = "c1" then some c3c1
  else if s = "fin" then some c3fin
  else none

/-- The SSE events of the sequence `[reasoning, reasoning, content, finish(stop)]`. -/
def c3Lines : List String := ["data: r1", "data: r2", "data: c1", "data: fin"]

/-- The exact output sequence the claim states for
`[reasoning, reasoning, content, finish(stop)]`. -/
def c3ClaimedEvents : List ClaudeEvent :=
  [ClaudeEvent.message_start "m",
   ClaudeEvent.content_block_start 0 "thinking",
   ClaudeEvent.content_block_delta 0 "thinking_delta" "A",
   ClaudeEvent.content_block_delta 0 "thinking_delta" "B",
   ClaudeEvent.content_block_stop 0,
   ClaudeEvent.content_block_start 1 "text",
   ClaudeEvent.content_block_delta 1 "text_delta" "C",
   ClaudeEvent.content_block_stop 1,
   ClaudeEvent.message_delta "end_turn",
   ClaudeEvent.message_stop]

/-- The C1 scenario: a queue with bound 1; task 1 admitted, tasks 2 and 3 queued at
equal priority; task 1 completes (its `finally` runs `releaseNext`, which resolves
both queued tickets); then both resumed continuations execute `running++`. -/
def c1Trace : QState :=
  resumeQ (resumeQ (completeQ (submitQ (submitQ (submitQ (initQ 1) 1 0) 2 0) 3 0)) 2) 3

/-- The C1 state just after task 1 completes, before the released continuations
resume. -/
def c1AfterComplete : QState :=
  completeQ (submitQ (submitQ (submitQ (initQ 1) 1 0) 2 0) 3 0)

/-- Default rate-limit configuration (`cooldownMs` defaults to 15000, enabled). -/
def c2Cfg : RLConfig := { enabled := true, cooldownMs := 15000 }

/-- A busy governor state with some 429 history, just before `endRequest`. -/
def c2Busy : RLState :=
  { isBusy := true, lastRequestTime := 50000, pendingRequests := 1,
    consecutive429Count := 3, effectiveCooldownMs := 120000 }

/-- The governor state right after `endRequest({status: 200})` at time 60000. -/
def c2After : RLState := endRequestRL c2Cfg c2Busy (some (RLOutcome.status 200)) 60000

/-- A queue state with one running task and one queued ticket, used to exercise
`setMaxConcurrency`. -/
def c10State : QState :=
  { running := 0, queue := [(5, 0), (6, 1)], released := [], maxConcurrency := 1,
    totalQueued := 3, totalProcessed := 1 }

/-- Message of the error thrown when `waitUntilCanProceed` exceeds its deadline. -/
def waitTimeoutMessage : String := "Timed out waiting for rate limiter"

/-- Message of the error thrown when `abortPendingRequests` cancels the wait. -/
def waitAbortedMessage : String := "Request cancelled: rate limiter aborted"

/-- One attempt of the admitted task: the governor wait may time out or be aborted
before `forward` runs; otherwise the attempt is a `forward` attempt with some
upstream behaviour. -/
inductive AdmittedAttempt where
  | waitTimeout
  | waitAborted
  | proceed (u : Upstream)
deriving DecidableEq, Repr

/-- The outcome of one admitted-task attempt: wait failures happen before any
forwarding, so they commit nothing to the client and reject with a plain `Error`
carrying the hard-coded message; otherwise the attempt behaves as `forward`. -/
def admittedModel : AdmittedAttempt → ForwardResult
  | AdmittedAttempt.waitTimeout =>
      { committed := false, outcome := Except.error (ProxyErr.generic waitTimeoutMessage) }
  | AdmittedAttempt.waitAborted =>
      { committed := false, outcome := Except.error (ProxyErr.generic waitAbortedMessage) }
  | AdmittedAttempt.proceed u => forwardModel u

/-- Claim C5 as stated: every retry of the admitted task follows an attempt that
failed with the distinguished rate-limit failure (which also committed no response
bytes). -/
def retryOnlyOnDistinguishedClaim : Prop :=
  ∀ (a : Nat → AdmittedAttempt) (maxRetries j : Nat),
    j + 1 < (retryWithBackoffM (fun i => (admittedModel (a i)).outcome)
        defaultShouldRetry maxRetries).2 →
    (admittedModel (a j)).committed = false ∧
    ∃ b, (admittedModel (a j)).outcome = Except.error (ProxyErr.rateLimit 429 b)

/-! ## Helper lemmas -/

/-- `retryGo` performs at least one attempt. -/
theorem retryGo_snd_ge (f : Nat → Except ProxyErr Nat) (sr : ProxyErr → Bool) :
    ∀ fuel i, i + 1 ≤ (retryGo f sr fuel i).2 := by
  intro fuel
  induction fuel with
  | zero =>
    intro i
    unfold retryGo
    cases f i <;> simp
  | succ fuel ih =>
    intro i
    unfold retryGo
    cases f i with
    | ok v => simp
    | error e =>
      cases hsr : sr e with
      | false => simp [hsr]
      | true =>
        simp only [hsr, if_true]
        exact le_trans (by omega) (ih (i + 1))

/-- Every attempt after the first is preceded by an attempt that failed with an
error the retry predicate accepts. -/
theorem retryGo_prev_error (f : Nat → Except ProxyErr Nat) (sr : ProxyErr → Bool) :
    ∀ fuel i j, i ≤ j → j + 1 < (retryGo f sr fuel i).2 →
      ∃ e, f j = Except.error e ∧ sr e = true := by
  intro fuel
  induction fuel with
  | zero =>
    intro i j hij h
    exfalso
    unfold retryGo at h
    cases hfi : f i <;> rw [hfi] at h <;> simp at h <;> omega
  | succ fuel ih =>
    intro i j hij h
    unfold retryGo at h
    cases hfi : f i with
    | ok v => rw [hfi] at h; simp at h; omega
    | error e =>
      rw [hfi] at h
      cases hsr : sr e with
      | false => simp [hsr] at h; omega
      | true =>
        simp only [hsr, if_true] at h
        rcases Nat.lt_or_ge i j with hlt | hge
        · exact ih (i + 1) j hlt h
        · have hij' : i = j := le_antisymm hij hge
          subst hij'
          exact ⟨e, hfi, hsr⟩

/-- When every attempt fails with a retryable error, the loop performs exactly
`fuel + 1` attempts from attempt `i` on and surfaces the last error. -/
theorem retryGo_all_retryable (E : Nat → ProxyErr) (sr : ProxyErr → Bool)
    (h : ∀ k, sr (E k) = true) :
    ∀ fuel i, retryGo (fun k => Except.error (E k)) sr fuel i =
      (Except.error (E (i + fuel)), i + fuel + 1) := by
  intro fuel
  induction fuel with
  | zero => intro i; unfold retryGo; simp
  | succ fuel ih =>
    intro i
    unfold retryGo
    simp only [h, if_true]
    rw [ih (i + 1)]
    have h1 : i + 1 + fuel = i + (fuel + 1) := by omega
    rw [h1]

/-- With `running < maxC` the release loop drains the whole queue into the released
list, in queue order. -/
theorem releaseLoop_lt (running maxC : Nat) (h : running < maxC) :
    ∀ q rel, releaseLoop running maxC q rel = ([], rel ++ q.map Prod.fst) := by
  intro q
  induction q with
  | nil => intro rel; simp [releaseLoop]
  | cons x xs ih =>
    intro rel
    simp [releaseLoop, h, ih]

/-- With `running ≥ maxC` the release loop releases nothing. -/
theorem releaseLoop_ge (running maxC : Nat) (h : ¬ running < maxC) :
    ∀ q rel, releaseLoop running maxC q rel = (q, rel) := by
  intro q rel
  cases q with
  | nil => simp [releaseLoop]
  | cons x xs => simp [releaseLoop, h]

/-- `truncateToolMessages` never touches the token-limit fields. -/
theorem truncateToolMessages_tokens (a b c : Int) (p : Payload) :
    (truncateToolMessages a b c p).max_tokens = p.max_tokens ∧
    (truncateToolMessages a b c p).max_output_tokens = p.max_output_tokens ∧
    (truncateToolMessages a b c p).max_completion_tokens = p.max_completion_tokens := by
  unfold truncateToolMessages
  by_cases h : normChars a = 0 <;> simp [h]

/-- With a positive cap, the adjusted head and tail sizes never exceed the cap
together. -/
theorem adjustHeadTail_le (maxChars headChars tailChars : Nat) (h : 0 < maxChars) :
    (adjustHeadTail maxChars headChars tailChars).1 +
      (adjustHeadTail maxChars headChars tailChars).2 ≤ maxChars := by
  unfold adjustHeadTail
  by_cases hc : 0 < maxChars ∧ maxChars < headChars + tailChars
  · rw [if_pos hc]; dsimp only; omega
  · rw [if_neg hc]; dsimp only; omega

/-- A within-cap head/tail configuration is used unchanged. -/
theorem adjustHeadTail_eq (maxChars headChars tailChars : Nat)
    (h : headChars + tailChars ≤ maxChars) :
    adjustHeadTail maxChars headChars tailChars = (headChars, tailChars) := by
  unfold adjustHeadTail
  rw [if_neg]
  omega

/-! ## Claim C1 -/

/-- C1 (code bug): with bound `M = 1` and three concurrent submissions, after the
running task completes, `releaseNext` resolves BOTH queued tickets in one synchronous
loop (`running` is not incremented until each resumed continuation runs), so both
resume and two tasks run at once: the reachable state has `running = 2` with
`maxConcurrency = 1`, violating "at most M of the submitted tasks are running at any
instant". -/
theorem claim_C1_concurrency_bound_violated :
    c1AfterComplete.released = [2, 3] ∧ c1AfterComplete.running = 0 ∧
    c1Trace.maxConcurrency = 1 ∧ c1Trace.running = 2 ∧
    c1Trace.maxConcurrency < c1Trace.running := by
  decide

/-! ## Claim C2 -/

/-- C2 (code bug): after `endRequest({status: 200})` the consecutive-failure count
and the effective cooldown are reset as the claim states, but `getStatus` falls back
to the configured default cooldown (`_effectiveCooldownMs || config.cooldownMs`), so
the observable remaining cooldown is the full 15000 ms immediately after a successful
completion and `canProceed` is false — not zero as the claim (and the code's own
comment) requires. -/
theorem claim_C2_cooldown_not_cleared_after_success :
    c2After.consecutive429Count = 0 ∧ c2After.effectiveCooldownMs = 0 ∧
    (getStatusRL c2Cfg c2After 60000).remainingCooldownMs = 15000 ∧
    (getStatusRL c2Cfg c2After 60000).isInCooldown = true ∧
    canProceedRL c2Cfg c2After 60000 = false := by
  decide

/-! ## Claim C3 -/

/-- C3 (code bug): feeding `[reasoning, reasoning, content, finish(stop)]` through
the dialect converter including its end-of-stream flush yields the ten claimed events
FOLLOWED BY an extra `message_delta(end_turn)` and `message_stop`: the finish-reason
handler already emitted the terminal events, and `_flush` re-emits them
unconditionally whenever a message was started. -/
theorem claim_C3_flush_duplicates_terminal_events :
    claudeRunLines c3Parse (some "m") c3Lines =
      c3ClaimedEvents ++ [ClaudeEvent.message_delta "end_turn", ClaudeEvent.message_stop] ∧
    claudeRunLines c3Parse (some "m") c3Lines ≠ c3ClaimedEvents := by
  decide

/-! ## Claim C4 -/

/-- C5 counterexample: the retry wrapper wraps the WHOLE admitted task, and a
`waitUntilCanProceed` deadline failure — reachable when the governor cooldown
(240 s after four consecutive 429s) exceeds the 120 s wait deadline — is retried,
because its message `Timed out waiting for rate limiter` spells the `rate limit`
pattern of `defaultShouldRetry`; yet it is a plain `Error`, not the distinguished
`RateLimitError`, refuting the claim as stated. -/
theorem claim_C5_counterexample : ¬ retryOnlyOnDistinguishedClaim := by
  intro h
  obtain ⟨-, b, hb⟩ := h (fun _ => AdmittedAttempt.waitTimeout) 2 0 (by decide)
  simp [admittedModel] at hb

/-- C5 amended: every retry of the admitted task follows an attempt that committed
no response bytes to the client and failed either with the distinguished rate-limit
failure (`RateLimitError`: upstream 429, fully buffered, headers never written) or
with one of the governor-wait failures (`Timed out waiting for rate limiter`,
`Request cancelled: rate limiter aborted`), which are thrown before forwarding even
starts but whose messages `defaultShouldRetry` also classifies as rate-limit-like.
Once the response has started streaming, a retry is never attempted: committed paths
either resolve (piped responses, preflight 502, timeout 504) or reject with
socket/stream error messages, which the environment hypothesis says do not spell
like rate-limit errors. -/
theorem claim_C5_retry_classification (a : Nat → AdmittedAttempt) (maxRetries : Nat)
    (henv : ∀ k msg, (a k = AdmittedAttempt.proceed (Upstream.noConnect msg) ∨
        ∃ s, a k = AdmittedAttempt.proceed (Upstream.reply s (some msg))) →
        messageMatchesRetry msg = false) :
    ∀ j, j + 1 < (retryWithBackoffM (fun i => (admittedModel (a i)).outcome)
        defaultShouldRetry maxRetries).2 →
      (admittedModel (a j)).committed = false ∧
      ((∃ b, (admittedModel (a j)).outcome = Except.error (ProxyErr.rateLimit 429 b)) ∨
        (admittedModel (a j)).outcome = Except.error (ProxyErr.generic waitTimeoutMessage) ∨
        (admittedModel (a j)).outcome = Except.error (ProxyErr.generic waitAbortedMessage)) := by
  intro j hj
  obtain ⟨e, hfe, hsr⟩ :=
    retryGo_prev_error (fun i => (admittedModel (a i)).outcome) defaultShouldRetry
      maxRetries 0 j (Nat.zero_le j) hj
  cases ha : a j with
  | waitTimeout => exact ⟨rfl, Or.inr (Or.inl rfl)⟩
  | waitAborted => exact ⟨rfl, Or.inr (Or.inr rfl)⟩
  | proceed u =>
    rw [ha] at hfe
    simp only [admittedModel] at hfe
    cases hu : u with
    | noConnect msg =>
      exfalso
      rw [hu] at hfe
      simp only [forwardModel] at hfe
      obtain rfl : e = ProxyErr.generic msg := by
        injection hfe with h1
        exact h1.symm
      have hm := henv j msg (Or.inl (by rw [ha, hu]))
      rw [defaultShouldRetry] at hsr
      rw [hm] at hsr
      exact Bool.false_ne_true hsr
    | reply429 body =>
      exact ⟨rfl, Or.inl ⟨body, rfl⟩⟩
    | reply status mid =>
      exfalso
      cases mid with
      | none =>
        rw [hu] at hfe
        simp [forwardModel] at hfe
      | some msg =>
        rw [hu] at hfe
        simp only [forwardModel] at hfe
        obtain rfl : e = ProxyErr.generic msg := by
          injection hfe with h1
          exact h1.symm
        have hm := henv j msg (Or.inr ⟨status, by rw [ha, hu]⟩)
        rw [defaultShouldRetry] at hsr
        rw [hm] at hsr
        exact Bool.false_ne_true hsr
    | timeout =>
      rw [hu] at hfe
      simp [forwardModel] at hfe

/-- Witness for the amended C5: an upstream answering 429 on every attempt, bound 2
retries; the second attempt is a retry, and attempt 0 indeed failed with the
uncommitted distinguished `RateLimitError`. -/
theorem claim_C5_witness :
    (admittedModel ((fun _ => AdmittedAttempt.proceed (Upstream.reply429 "quota")) 0)).committed
        = false ∧
    ((∃ b, (admittedModel
        ((fun _ => AdmittedAttempt.proceed (Upstream.reply429 "quota")) 0)).outcome =
        Except.error (ProxyErr.rateLimit 429 b)) ∨
      (admittedModel
        ((fun _ => AdmittedAttempt.proceed (Upstream.reply429 "quota")) 0)).outcome =
        Except.error (ProxyErr.generic waitTimeoutMessage) ∨
      (admittedModel
        ((fun _ => AdmittedAttempt.proceed (Upstream.reply429 "quota")) 0)).outcome =
        Except.error (ProxyErr.generic waitAbortedMessage)) :=
  claim_C5_retry_classification
    (fun _ => AdmittedAttempt.proceed (Upstream.reply429 "quota")) 2
    (by intro k msg h
        rcases h with h | ⟨s, h⟩ <;> simp at h)
    0 (by decide)

/-! ## Claim C6 -/

/-- C6: when the upstream replies 429 on the initial attempt and on every retry, no
attempt ever commits response bytes (each 429 is fully buffered into the
`RateLimitError`, never piped), the loop performs exactly `maxRetries + 1` attempts,
the final outcome is the distinguished rate-limit failure carrying the last buffered
body, and the catch block (headers never sent) answers the client with HTTP 503 and
the generic retryable body — deliberately not 429. -/
theorem claim_C6_exhausted_429_surfaces_as_503 (bodies : Nat → String)
    (maxRetries : Nat) :
    (∀ i, (forwardModel (Upstream.reply429 (bodies i))).committed = false) ∧
    (retryWithBackoffM (fun i => (forwardModel (Upstream.reply429 (bodies i))).outcome)
        defaultShouldRetry maxRetries).2 = maxRetries + 1 ∧
    (retryWithBackoffM (fun i => (forwardModel (Upstream.reply429 (bodies i))).outcome)
        defaultShouldRetry maxRetries).1 =
      Except.error (ProxyErr.rateLimit 429 (bodies maxRetries)) ∧
    clientErrorResponse (ProxyErr.rateLimit 429 (bodies maxRetries)) false =
      some (503, { message := "Model temporarily unavailable", retryable := some true,
                   code := some "SERVICE_UNAVAILABLE" }) ∧
    (503 : Nat) ≠ 429 := by
  have hfun : (fun i => (forwardModel (Upstream.reply429 (bodies i))).outcome) =
      (fun k => Except.error (ProxyErr.rateLimit 429 (bodies k))) := by
    funext k
    rfl
  have hall := retryGo_all_retryable (fun k => ProxyErr.rateLimit 429 (bodies k))
    defaultShouldRetry (by intro k; rfl) maxRetries 0
  refine ⟨fun i => rfl, ?_, ?_, rfl, by decide⟩
  · unfold retryWithBackoffM
    rw [hfun, hall]
    omega
  · unfold retryWithBackoffM
    rw [hfun, hall]
    simp

/-! ## Claim C7 -/

/-- Clamping a present field yields `min(original, cap)`, which never exceeds either
the original value or the cap. -/
theorem clampField_spec (cap : Int) (o : Option Int) (v : Int) (hv : o = some v) :
    clampField cap o = some (min v cap) ∧ min v cap ≤ v ∧ min v cap ≤ cap := by
  subst hv
  exact ⟨rfl, min_le_left v cap, min_le_right v cap⟩

/-- With rewriting enabled and a positive class cap, every token field of the
rewritten payload is the clamp of the original field. -/
theorem tryRewrite_token_fields (cfg : RewriteCfg) (modelName : Option String)
    (p : Payload) (hrw : cfg.rewriteMaxTokens = true)
    (hcap : 0 < tokenCap cfg modelName) :
    (tryRewritePayloadModel cfg modelName p).max_tokens =
      clampField (tokenCap cfg modelName) p.max_tokens ∧
    (tryRewritePayloadModel cfg modelName p).max_output_tokens =
      clampField (tokenCap cfg modelName) p.max_output_tokens ∧
    (tryRewritePayloadModel cfg modelName p).max_completion_tokens =
      clampField (tokenCap cfg modelName) p.max_completion_tokens := by
  have htok := truncateToolMessages_tokens cfg.maxToolOutputChars cfg.toolOutputHeadChars
    cfg.toolOutputTailChars p
  unfold tryRewritePayloadModel
  rw [hrw]
  cases htr : cfg.truncateToolOutput with
  | true =>
    simp only [htr, if_true, if_pos hcap]
    exact ⟨by rw [htok.1], by rw [htok.2.1], by rw [htok.2.2]⟩
  | false =>
    simp only [htr, Bool.false_eq_true, if_false, if_pos hcap]
    exact ⟨rfl, rfl, rfl⟩

/-- C8: with rewriting enabled and a positive class cap, each known output-limit
field present as a number is set to `min(original, classCap)` for the request's
derived class; the rewritten value never exceeds the original and never exceeds the
cap. -/
theorem claim_C8_token_clamp (cfg : RewriteCfg) (modelName : Option String)
    (p : Payload) (hrw : cfg.rewriteMaxTokens = true)
    (hcap : 0 < tokenCap cfg modelName) :
    (∀ v, p.max_tokens = some v →
      (tryRewritePayloadModel cfg modelName p).max_tokens =
        some (min v (tokenCap cfg modelName)) ∧
      min v (tokenCap cfg modelName) ≤ v ∧
      min v (tokenCap cfg modelName) ≤ tokenCap cfg modelName) ∧
    (∀ v, p.max_output_tokens = some v →
      (tryRewritePayloadModel cfg modelName p).max_output_tokens =
        some (min v (tokenCap cfg modelName)) ∧
      min v (tokenCap cfg modelName) ≤ v ∧
      min v (tokenCap cfg modelName) ≤ tokenCap cfg modelName) ∧
    (∀ v, p.max_completion_tokens = some v →
      (tryRewritePayloadModel cfg modelName p).max_completion_tokens =
        some (min v (tokenCap cfg modelName)) ∧
      min v (tokenCap cfg modelName) ≤ v ∧
      min v (tokenCap cfg modelName) ≤ tokenCap cfg modelName) := by
  obtain ⟨h1, h2, h3⟩ := tryRewrite_token_fields cfg modelName p hrw hcap
  refine ⟨fun v hv => ?_, fun v hv => ?_, fun v hv => ?_⟩
  · obtain ⟨hc, hlv, hlc⟩ := clampField_spec (tokenCap cfg modelName) p.max_tokens v hv
    exact ⟨by rw [h1, hc], hlv, hlc⟩
  · obtain ⟨hc, hlv, hlc⟩ := clampField_spec (tokenCap cfg modelName) p.max_output_tokens v hv
    exact ⟨by rw [h2, hc], hlv, hlc⟩
  · obtain ⟨hc, hlv, hlc⟩ :=
      clampField_spec (tokenCap cfg modelName) p.max_completion_tokens v hv
    exact ⟨by rw [h3, hc], hlv, hlc⟩

/-- Witness for C8, matching the spec's end-to-end example: a thinking-class request
with `max_tokens = 8000` under a thinking cap of 2048 is rewritten to 2048. -/
theorem claim_C8_witness :
    (tryRewritePayloadModel
        { truncateToolOutput := true, maxToolOutputChars := 12000,
          toolOutputHeadChars := 6000, toolOutputTailChars := 2000,
          rewriteMaxTokens := true, maxTokensThinking := 2048,
          maxTokensStandard := 4096 }
        (some "gemini-2.5-thinking") { max_tokens := some 8000 }).max_tokens =
      some 2048 := by
  have h := (claim_C8_token_clamp
    { truncateToolOutput := true, maxToolOutputChars := 12000,
      toolOutputHeadChars := 6000, toolOutputTailChars := 2000,
      rewriteMaxTokens := true, maxTokensThinking := 2048, maxTokensStandard := 4096 }
    (some "gemini-2.5-thinking") { max_tokens := some 8000 } rfl (by decide)).1 8000 rfl
  rw [h.1]
  decide

/-! ## Claim C9 -/

/-- Head and tail of the truncation are verbatim spans of the original: the original
splits as `head ++ mid ++ tail` with `head` the first `h` chars, `tail` the last `t`
chars, and `mid` the omitted span. -/
theorem truncate_head_tail_exact (s : String) (h t : Nat) (hle : h + t ≤ strLen s) :
    ∃ mid : List Char,
      s.data = (takeStr s h).data ++ mid ++ (takeRightStr s t).data ∧
      mid.length = strLen s - h - t := by
  refine ⟨(s.data.drop h).take (strLen s - h - t), ?_, ?_⟩
  · show s.data = s.data.take h ++ (s.data.drop h).take (strLen s - h - t) ++
      s.data.drop (s.data.length - t)
    have hdd : (s.data.drop h).drop (strLen s - h - t) = s.data.drop (s.data.length - t) := by
      rw [List.drop_drop]
      congr 1
      unfold strLen at hle ⊢
      omega
    have e1 : (s.data.drop h).take (strLen s - h - t) ++ s.data.drop (s.data.length - t) =
        s.data.drop h := by
      rw [← hdd, List.take_append_drop]
    rw [List.append_assoc, e1, List.take_append_drop]
  · rw [List.length_take, List.length_drop]
    unfold strLen
    omega

/-- `takeStr` of an in-range size has exactly that size. -/
theorem strLen_takeStr (s : String) (h : Nat) (hh : h ≤ strLen s) :
    strLen (takeStr s h) = h := by
  unfold takeStr strLen
  simp only [List.length_take]
  unfold strLen at hh
  omega

/-- `takeRightStr` of an in-range size has exactly that size. -/
theorem strLen_takeRightStr (s : String) (t : Nat) (ht : t ≤ strLen s) :
    strLen (takeRightStr s t) = t := by
  unfold takeRightStr strLen
  simp only [List.length_drop]
  unfold strLen at ht
  omega

/-- The truncation body produces exactly `head ++ marker(omitted) ++ tail` with the
omitted count `L - h - t`. -/
theorem truncateContent_eq (s : String) (h t : Nat) (hh : h ≤ strLen s)
    (htl : t ≤ strLen s) :
    truncateContent h t s =
      takeStr s h ++ truncMarker (strLen s - h - t) ++ takeRightStr s t := by
  unfold truncateContent
  dsimp only
  by_cases h2 : 0 < t
  · rw [if_pos h2, strLen_takeStr s h hh, strLen_takeRightStr s t htl]
  · rw [if_neg h2]
    have ht0 : t = 0 := by omega
    subst ht0
    have hz : takeRightStr s 0 = "" := by
      unfold takeRightStr
      have : s.data.drop (s.data.length - 0) = [] := by
        rw [Nat.sub_zero]
        exact List.drop_length s.data
      rw [this]
    rw [hz, strLen_takeStr s h hh]
    show takeStr s h ++ truncMarker (strLen s - h - strLen "") ++ "" =
      takeStr s h ++ truncMarker (strLen s - h - 0) ++ ""
    rfl

/-- An over-cap tool message is rewritten to exactly
`head + omission-marker + tail`. -/
theorem truncateMsg_over (maxChars h t : Nat) (m : Msg) (s : String)
    (hrole : m.role = "tool") (hcont : m.content = some s)
    (hlen : maxChars < strLen s) (hh : h ≤ strLen s) (htl : t ≤ strLen s) :
    (truncateMsg maxChars h t m).content =
      some (takeStr s h ++ truncMarker (strLen s - h - t) ++ takeRightStr s t) := by
  unfold truncateMsg
  rw [if_neg (by rw [hrole]; simp), hcont]
  simp only
  rw [if_neg (by omega)]
  rw [truncateContent_eq s h t hh htl]

/-- C9: for every message entry, the rewriter (with a positive normalized cap) never
touches non-tool roles, never touches within-cap contents, and replaces an over-cap
tool content by exactly `head + omission-marker + tail`, where the adjusted head and
tail sizes together never exceed the cap (and equal the configured sizes whenever
those already fit within the cap), head being verbatim the first chars and tail
verbatim the last chars of the original. -/
theorem claim_C9_tool_output_truncation (maxI hI tI : Int) (m : Msg) (s : String)
    (hmax : 0 < normChars maxI) :
    (adjustHeadTail (normChars maxI) (normChars hI) (normChars tI)).1 +
      (adjustHeadTail (normChars maxI) (normChars hI) (normChars tI)).2 ≤ normChars maxI ∧
    (normChars hI + normChars tI ≤ normChars maxI →
      adjustHeadTail (normChars maxI) (normChars hI) (normChars tI) =
        (normChars hI, normChars tI)) ∧
    (∀ p : Payload, (truncateToolMessages maxI hI tI p).messages =
      p.messages.map (truncateMsg (normChars maxI)
        (adjustHeadTail (normChars maxI) (normChars hI) (normChars tI)).1
        (adjustHeadTail (normChars maxI) (normChars hI) (normChars tI)).2)) ∧
    (∀ h t : Nat, m.role ≠ "tool" → truncateMsg (normChars maxI) h t m = m) ∧
    (∀ h t : Nat, strLen s ≤ normChars maxI →
      truncateMsg (normChars maxI) h t { role := "tool", content := some s } =
        { role := "tool", content := some s }) ∧
    (m.role = "tool" → m.content = some s → normChars maxI < strLen s →
      (truncateMsg (normChars maxI)
          (adjustHeadTail (normChars maxI) (normChars hI) (normChars tI)).1
          (adjustHeadTail (normChars maxI) (normChars hI) (normChars tI)).2 m).content =
        some (takeStr s (adjustHeadTail (normChars maxI) (normChars hI) (normChars tI)).1 ++
          truncMarker (strLen s -
            (adjustHeadTail (normChars maxI) (normChars hI) (normChars tI)).1 -
            (adjustHeadTail (normChars maxI) (normChars hI) (normChars tI)).2) ++
          takeRightStr s
            (adjustHeadTail (normChars maxI) (normChars hI) (normChars tI)).2) ∧
      ∃ mid : List Char,
        s.data =
          (takeStr s (adjustHeadTail (normChars maxI) (normChars hI) (normChars tI)).1).data ++
          mid ++
          (takeRightStr s
            (adjustHeadTail (normChars maxI) (normChars hI) (normChars tI)).2).data ∧
        mid.length = strLen s -
          (adjustHeadTail (normChars maxI) (normChars hI) (normChars tI)).1 -
          (adjustHeadTail (normChars maxI) (normChars hI) (normChars tI)).2) := by
  have hle := adjustHeadTail_le (normChars maxI) (normChars hI) (normChars tI) hmax
  refine ⟨hle, fun hfit => adjustHeadTail_eq _ _ _ hfit, fun p => ?_, ?_, ?_, ?_⟩
  · unfold truncateToolMessages
    rw [if_neg (by omega)]
  · intro h t hrole
    unfold truncateMsg
    rw [if_pos hrole]
  · intro h t hlen
    unfold truncateMsg
    rw [if_neg (by simp)]
    simp only
    rw [if_pos hlen]
  · intro hrole hcont hlen
    constructor
    · exact truncateMsg_over (normChars maxI) _ _ m s hrole hcont hlen
        (by omega) (by omega)
    · exact truncate_head_tail_exact s _ _ (by omega)

/-- Witness for C9: cap 10, head 4, tail 3 on a 12-char tool content keeps the first
4 and last 3 chars verbatim around the omission marker for the 5 omitted chars. -/
theorem claim_C9_witness :
    (truncateMsg 10 4 3 { role := "tool", content := some "0123456789AB" }).content =
      some ("0123" ++ truncMarker 5 ++ "9AB") := by
  have h := ((claim_C9_tool_output_truncation 10 4 3
    { role := "tool", content := some "0123456789AB" } "0123456789AB"
    (by decide)).2.2.2.2.2 rfl rfl (by decide)).1
  exact Eq.trans (Eq.trans (by decide) h) (by decide)

/-! ## Claim C10 -/

/-- C10: `setMaxConcurrency(n)` clamps the bound to `max(1, n)` — never below 1, so
queued tickets cannot be stranded by a zero or negative configuration value — and
immediately runs `releaseNext` under the new bound: when the running count is below
the new bound every queued ticket is resolved (in queue order), otherwise the queue
is left untouched. -/
theorem claim_C10_set_max_concurrency (s : QState) (n : Int) :
    ((setMaxConcurrencyQ s n).maxConcurrency : Int) = max 1 n ∧
    1 ≤ (setMaxConcurrencyQ s n).maxConcurrency ∧
    (s.running < (max 1 n).toNat →
      (setMaxConcurrencyQ s n).queue = [] ∧
      (setMaxConcurrencyQ s n).released = s.released ++ s.queue.map Prod.fst) ∧
    (¬ s.running < (max 1 n).toNat →
      (setMaxConcurrencyQ s n).queue = s.queue ∧
      (setMaxConcurrencyQ s n).released = s.released) := by
  have hone : (1 : Int) ≤ max 1 n := le_max_left 1 n
  refine ⟨?_, ?_, ?_, ?_⟩
  · unfold setMaxConcurrencyQ releaseNextQ
    simp only
    rw [Int.toNat_of_nonneg (by omega)]
  · unfold setMaxConcurrencyQ releaseNextQ
    simp only
    omega
  · intro hlt
    unfold setMaxConcurrencyQ releaseNextQ
    simp only
    rw [releaseLoop_lt s.running ((max 1 n).toNat) hlt s.queue s.released]
    exact ⟨rfl, rfl⟩
  · intro hge
    unfold setMaxConcurrencyQ releaseNextQ
    simp only
    rw [releaseLoop_ge s.running ((max 1 n).toNat) hge s.queue s.released]
    exact ⟨rfl, rfl⟩

/-- Witness for C10: a negative configured value on a state with two queued tickets
yields bound 1 and (running count 0 being below the bound) releases both tickets. -/
theorem claim_C10_witness :
    ((setMaxConcurrencyQ c10State (-3)).maxConcurrency : Int) = max 1 (-3) ∧
    (setMaxConcurrencyQ c10State (-3)).queue = [] ∧
    (setMaxConcurrencyQ c10State (-3)).released = [5, 6] :=
  ⟨(claim_C10_set_max_concurrency c10State (-3)).1,
   ((claim_C10_set_max_concurrency c10State (-3)).2.2.1 (by decide)).1,
   Eq.trans ((claim_C10_set_max_concurrency c10State (-3)).2.2.1 (by decide)).2 (by decide)⟩
